import Mathlib

/-!
Formal model of the Wave browser-extension recording / replay engine.

The development shallowly embeds the page-resident engine
(`src/content/content.js`: selector synthesis, element resolution with
polling, step execution, the recording state machine) and the relevant
parts of the orchestrator (`src/background/background.js`: the playback
loop and the wait-step delay computation).  DOM documents are modelled as
lists of element records in document order with parent pointers; the
platform string functions used by the source (`trim`, `split`, `replace`,
`parseInt`, `CSS.escape`, the CSS query engine over the selector grammar
the synthesizer emits) are modelled by executable character-list
functions.
-/

namespace Wave

/-! ## Character and list-of-character helpers (models of the JS string ops) -/

/-- Word character of the JS regex class `\w`: ASCII letters, digits, `_`. -/
def isWordChar (c : Char) : Bool := c.isAlphanum || c == '_'

/-- Characters accepted inside a plain CSS identifier by our query-engine model. -/
def isIdentChar (c : Char) : Bool := c.isAlphanum || c == '-' || c == '_'

/-- Hexadecimal digit, either case (the regex class `[a-f0-9]` with the `i` flag). -/
def isHexDigitChar (c : Char) : Bool :=
  c.isDigit || ('a' ≤ c && c ≤ 'f') || ('A' ≤ c && c ≤ 'F')

/-- Character of the regex class `[a-f0-9-]` with the `i` flag. -/
def isHexDashChar (c : Char) : Bool := isHexDigitChar c || c == '-'

/-- Model of JS `String.prototype.trim` on a character list. -/
def wsTrimL (l : List Char) : List Char :=
  ((l.dropWhile Char.isWhitespace).reverse.dropWhile Char.isWhitespace).reverse

/-- Model of JS `String.prototype.trim`. -/
def trimJS (s : String) : String := ⟨wsTrimL s.data⟩

/-- Prepend a character to the head piece of a split result. -/
def consHead (c : Char) : List (List Char) → List (List Char)
  | [] => [[c]]
  | h :: t => (c :: h) :: t

/-- Model of JS `String.prototype.split` with a one-character separator:
splits at every occurrence, keeping empty pieces. -/
def splitOnCharL (sep : Char) : List Char → List (List Char)
  | [] => [[]]
  | c :: r => if c == sep then [] :: splitOnCharL sep r else consHead c (splitOnCharL sep r)

/-- Join pieces with a one-character separator (left inverse of `splitOnCharL`). -/
def joinCharL (sep : Char) : List (List Char) → List Char
  | [] => []
  | [g] => g
  | g :: gs => g ++ sep :: joinCharL sep gs

/-- Split a character list into maximal runs of non-whitespace characters
(the behaviour of `.trim().split(/\s+/)` on the inputs the source feeds it,
with empty pieces dropped). -/
def wordRunsAux (acc : List Char) : List Char → List (List Char)
  | [] => if acc.isEmpty then [] else [acc.reverse]
  | c :: r =>
    if c.isWhitespace then
      if acc.isEmpty then wordRunsAux [] r else acc.reverse :: wordRunsAux [] r
    else wordRunsAux (c :: acc) r

/-- Whitespace-separated words of a string, as strings. -/
def splitWs (s : String) : List String := (wordRunsAux [] s.data).map (fun l => ⟨l⟩)

/-- Normalised class string: `className.trim().split(/\s+/).join(' ')`. -/
def classNorm (s : String) : String := String.intercalate " " (splitWs s)

/-- `chopFront pat l` returns `some rest` when `l = pat ++ rest`. -/
def chopFront : List Char → List Char → Option (List Char)
  | [], l => some l
  | _ :: _, [] => none
  | p :: ps, c :: cs => if c == p then chopFront ps cs else none

/-- Substring containment on character lists (model of JS `includes` /
the CSS `[attr*=v]` substring test). -/
def containsSeq (pat : List Char) : List Char → Bool
  | [] => pat.isEmpty
  | c :: cs => (chopFront pat (c :: cs)).isSome || containsSeq pat cs

/-- Drop everything up to and including the first occurrence of `pat`. -/
def afterSeq (pat : List Char) : List Char → List Char
  | [] => []
  | c :: cs =>
    match chopFront pat (c :: cs) with
    | some rest => rest
    | none => afterSeq pat cs

/-- Model of the JS global replace `text.replace(/"/g, '\\"')`:
escape every double quote with a backslash. -/
def escQuotesL : List Char → List Char
  | [] => []
  | c :: r => if c == '"' then '\\' :: '"' :: escQuotesL r else c :: escQuotesL r

/-- Model of the JS global replace `text.replace(/\\"/g, '"')`:
collapse every backslash-quote pair back to a quote (left to right,
non-overlapping, as the JS global replace does). -/
def unescQuotesL : List Char → List Char
  | [] => []
  | [c] => [c]
  | c1 :: c2 :: r =>
    if c1 == '\\' && c2 == '"' then '"' :: unescQuotesL r
    else c1 :: unescQuotesL (c2 :: r)

/-- `escQuotes` on strings. -/
def escQuotes (s : String) : String := ⟨escQuotesL s.data⟩

/-- Uppercase a string (model of JS `toUpperCase` for the ASCII inputs used). -/
def jsUpper (s : String) : String := ⟨s.data.map Char.toUpper⟩

/-- Lowercase a string (model of JS `toLowerCase` for the ASCII inputs used). -/
def jsLower (s : String) : String := ⟨s.data.map Char.toLower⟩

/-! ## The document model

A document is a list of element records in document order; identity is the
`eid` field, ancestry the `parent` pointer.  `textContent` and the computed
style summary are stored directly, as the platform reports them. -/

structure Elem where
  eid : Nat
  parent : Option Nat
  /-- `tagName`, uppercase as the DOM reports it. -/
  tag : String
  id : String
  className : String
  attrs : List (String × String)
  textContent : String
  display : String
  visibility : String
  opacity : String
  hasOffsetParent : Bool
  contentEditable : Bool
deriving DecidableEq

abbrev Doc := List Elem

/-- `element.getAttribute(a)`: `none` models a `null` return. -/
def getAttr (e : Elem) (a : String) : Option String :=
  (e.attrs.find? (fun p => p.1 == a)).map (fun p => p.2)

/-- An attribute value that is truthy in JS: present and nonempty. -/
def truthyAttr (e : Elem) (a : String) : Option String :=
  match getAttr e a with
  | some v => if v == "" then none else some v
  | none => none

/-- `isVisible` from content.js lines 618-624. -/
def isVisible (e : Elem) : Bool :=
  e.display != "none" && e.visibility != "hidden" && e.opacity != "0" && e.hasOffsetParent

/-- `element.parentElement`. -/
def parentOf (doc : Doc) (e : Elem) : Option Elem :=
  e.parent.bind (fun p => doc.find? (fun x => x.eid == p))

/-- `parent.children` (element children, in document order). -/
def childrenOf (doc : Doc) (p : Elem) : List Elem :=
  doc.filter (fun x => x.parent == some p.eid)

/-! ## Background orchestrator: wait-step delay (background.js lines 346-349) -/

/-- Numeric value of a hex digit character. -/
def hexVal (c : Char) : Nat :=
  if c.isDigit then c.toNat - 48 else c.toLower.toNat - 87

/-- Digits-to-number accumulation. -/
def natFromDigits (radix : Nat) (ds : List Char) : Nat :=
  ds.foldl (fun acc c => acc * radix + hexVal c) 0

/-- Model of JS `parseInt(s)` (no radix argument): skip leading whitespace,
optional sign, `0x`/`0X` switches to base 16, parse the maximal digit run;
`none` models `NaN`. -/
def parseIntJS (s : String) : Option Int :=
  let l := s.data.dropWhile Char.isWhitespace
  let sgn : Int := match l.head? with | some '-' => -1 | _ => 1
  let l2 := match l with
    | '-' :: r => r
    | '+' :: r => r
    | r => r
  match l2 with
  | '0' :: 'x' :: r =>
    let ds := r.takeWhile isHexDigitChar
    if ds.isEmpty then none else some (sgn * (natFromDigits 16 ds : Nat))
  | '0' :: 'X' :: r =>
    let ds := r.takeWhile isHexDigitChar
    if ds.isEmpty then none else some (sgn * (natFromDigits 16 ds : Nat))
  | r =>
    let ds := r.takeWhile Char.isDigit
    if ds.isEmpty then none else some (sgn * (natFromDigits 10 ds : Nat))

/-- Sleep duration (ms) the background executor computes for a `wait` step:
`const waitTime = parseInt(step.value) || 1000; await sleep(Math.min(waitTime, 30000))`. -/
def waitStepSleepMs (value : String) : Int :=
  let waitTime : Int :=
    match parseIntJS value with
    | some n => if n = 0 then 1000 else n
    | none => 1000
  min waitTime 30000

/-! ## Background orchestrator: playback loop (background.js lines 258-302) -/

structure Step where
  type : String
  selector : String
  value : String
  tagName : String
deriving DecidableEq

structure PlayResult where
  success : Bool
  errorMsg : Option String
  stepIndex : Option Nat
deriving DecidableEq

/-- The step loop of `handlePlayWorkflow`: execute steps in order, abort on
the first failure with the message `Step <i+1> failed: <reason>` and the
0-based `stepIndex`.  Alongside the result we return the 0-based indices of
the steps actually attempted, in execution order.  The per-step send to the
page engine is abstracted as the oracle `exec`. -/
def playLoop (exec : Nat → Step → Except String Unit) :
    List Step → Nat → PlayResult × List Nat
  | [], _ => (⟨true, none, none⟩, [])
  | s :: rest, i =>
    match exec i s with
    | Except.ok _ =>
      let out := playLoop exec rest (i + 1)
      (out.1, i :: out.2)
    | Except.error m =>
      (⟨false, some ("Step " ++ toString (i + 1) ++ " failed: " ++ m), some i⟩, [i])

/-- `handlePlayWorkflow` restricted to its step loop, starting at index 0. -/
def handlePlayWorkflow (exec : Nat → Step → Except String Unit) (steps : List Step) :
    PlayResult × List Nat :=
  playLoop exec steps 0

/-! ## Capture engine state machine (content.js lines 67-172) -/

structure RecState where
  isRecording : Bool
  winListeners : Bool
  docListeners : Bool
  observerActive : Bool
  indicatorShown : Bool
  /-- Identities of shadow roots recorded in the `attachedShadowRoots` WeakSet. -/
  attachedRoots : List Nat
  /-- Identities of shadow roots that currently carry the capture listeners. -/
  rootListeners : List Nat
deriving DecidableEq

def initRecState : RecState := ⟨false, false, false, false, false, [], []⟩

/-- One shadow root discovered by `attachToShadowRoots`: if it is not in the
attached set yet, add it to the set and attach the capture listeners. -/
def attachStep (r : Nat) (st : RecState) : RecState :=
  if st.attachedRoots.contains r then st
  else { st with
          attachedRoots := st.attachedRoots ++ [r],
          rootListeners := st.rootListeners ++ [r] }

/-- `attachToShadowRoots`: attach listeners to every discovered shadow root
not already in the attached set, recording it in the set. -/
def attachToShadowRootsM (roots : List Nat) (s : RecState) : RecState :=
  roots.foldl (fun st r => attachStep r st) s

/-- `startRecording`: idempotent-guarded; adds window and document listeners,
starts the shadow observer, attaches to the page's current shadow roots,
shows the indicator. -/
def startRecordingM (pageRoots : List Nat) (s : RecState) : RecState :=
  if s.isRecording then s
  else
    attachToShadowRootsM pageRoots
      { s with
          isRecording := true, winListeners := true, docListeners := true,
          observerActive := true, indicatorShown := true }

/-- `stopRecording` (content.js lines 91-116): idempotent-guarded; removes the
window and document listeners, disconnects the observer, hides the indicator.
It does not touch `attachedShadowRoots` and removes no shadow-root listener. -/
def stopRecordingM (s : RecState) : RecState :=
  if !s.isRecording then s
  else
    { s with
        isRecording := false, winListeners := false, docListeners := false,
        observerActive := false, indicatorShown := false }

/-! ## Selector synthesis: stability filters (content.js lines 405-421) -/

/-- The regex `/^[a-f0-9-]{36}$/i` of `isStableId`. -/
def uuidRegexMatch (s : String) : Bool :=
  s.length == 36 && s.data.all isHexDashChar

/-- The regex `/^:r[a-z0-9]+:$/i` of `isStableId` (React-generated ids). -/
def reactIdMatch (s : String) : Bool :=
  match s.data with
  | ':' :: c :: rest =>
    (c == 'r' || c == 'R') &&
      !rest.dropLast.isEmpty && rest.dropLast.all Char.isAlphanum &&
      rest.getLast? == some ':'
  | _ => false

/-- The regex `/^\d+$/` of `isStableId`. -/
def pureNumericMatch (s : String) : Bool :=
  !s.data.isEmpty && s.data.all Char.isDigit

/-- `isStableId` (content.js lines 405-412): the sequence of early
`return false` guards, written as a conjunction. -/
def isStableId (s : String) : Bool :=
  !uuidRegexMatch s && !reactIdMatch s && !pureNumericMatch s && !decide (50 < s.length)

/-- The regex `/^[a-z]{1,3}-[a-f0-9]{4,}$/i` of `isStableClass`
(CSS-modules hash).  The hex group cannot contain a hyphen, so the regex
matches exactly the strings with one hyphen splitting them into a 1-3
letter group and a 4+ hex group. -/
def cssModuleHashMatch (s : String) : Bool :=
  match splitOnCharL '-' s.data with
  | [a, b] =>
    (a.length == 1 || a.length == 2 || a.length == 3) && a.all Char.isAlpha &&
      decide (4 ≤ b.length) && b.all isHexDigitChar
  | _ => false

/-- The regex `/^css-[a-z0-9]+$/i` of `isStableClass` (Emotion / styled). -/
def emotionClassMatch (s : String) : Bool :=
  match chopFront "css-".data (s.data.map Char.toLower) with
  | some rest => !rest.isEmpty && rest.all Char.isAlphanum
  | none => false

/-- The regex `/^sc-[a-zA-Z]+$/i` of `isStableClass` (styled-components). -/
def styledClassMatch (s : String) : Bool :=
  match chopFront "sc-".data (s.data.map Char.toLower) with
  | some rest => !rest.isEmpty && rest.all Char.isAlpha
  | none => false

/-- `isStableClass` (content.js lines 414-421). -/
def isStableClass (s : String) : Bool :=
  !cssModuleHashMatch s && !emotionClassMatch s && !styledClassMatch s &&
    !decide (30 < s.length)

/-! ## Selector synthesis: CSS.escape and URL pathname (platform models) -/

/-- Hex digits of a code point, as CSS.escape prints them. -/
def hexOf (n : Nat) : List Char := Nat.toDigits 16 n

/-- One character of the CSSOM `CSS.escape` serialization: `first` is the
first character of the whole string, `len` its length, `i` the index of `c`. -/
def cssEscapeChar (first : Option Char) (len i : Nat) (c : Char) : List Char :=
  if c.toNat == 0 then [Char.ofNat 0xFFFD]
  else if (decide (1 ≤ c.toNat) && decide (c.toNat ≤ 31)) || c.toNat == 127 then
    '\\' :: hexOf c.toNat ++ [' ']
  else if i == 0 && c.isDigit then '\\' :: hexOf c.toNat ++ [' ']
  else if i == 1 && c.isDigit && first == some '-' then '\\' :: hexOf c.toNat ++ [' ']
  else if i == 0 && len == 1 && c == '-' then ['\\', '-']
  else if decide (128 ≤ c.toNat) || c == '-' || c == '_' || c.isAlphanum then [c]
  else ['\\', c]

def cssEscapeAux (first : Option Char) (len : Nat) : Nat → List Char → List Char
  | _, [] => []
  | i, c :: rest => cssEscapeChar first len i c ++ cssEscapeAux first len (i + 1) rest

/-- Model of the platform `CSS.escape`. -/
def cssEscape (s : String) : String :=
  ⟨cssEscapeAux s.data.head? s.data.length 0 s.data⟩

/-- Model of `new URL(href, window.location.origin).pathname` for the common
href shapes the synthesizer meets: absolute URLs, absolute paths, and
relative paths resolved against an origin with no path. -/
def urlPathname (href : String) : String :=
  let stripQF := fun (l : List Char) => l.takeWhile (fun c => c != '?' && c != '#')
  let d := href.data
  if containsSeq "://".data d then
    let path := (afterSeq "://".data d).dropWhile (fun c => c != '/')
    if path.isEmpty then "/" else ⟨stripQF path⟩
  else if d.head? == some '/' then ⟨stripQF d⟩
  else ⟨'/' :: stripQF d⟩

/-! ## Selector synthesis: the priority cascade (content.js lines 306-403)

Each numbered block of `generateSelector` becomes one function; the
uniqueness checks `document.querySelectorAll(sel).length === 1` are modelled
semantically, counting the elements the emitted selector matches. -/

/-- Priority 1: stable id. -/
def strat1Id (_doc : Doc) (e : Elem) : Option String :=
  if e.id != "" && isStableId e.id then some ("#" ++ cssEscape e.id) else none

/-- The attribute name re-chosen by the priority-2 block. -/
def testAttrName (e : Elem) : String :=
  if (truthyAttr e "data-testid").isSome then "data-testid"
  else if (truthyAttr e "data-test-id").isSome then "data-test-id"
  else if (truthyAttr e "data-cy").isSome then "data-cy"
  else "data-id"

/-- Priority 2: test-marker attributes, first truthy of the four. -/
def strat2TestAttr (_doc : Doc) (e : Elem) : Option String :=
  match (truthyAttr e "data-testid").orElse (fun _ =>
        (truthyAttr e "data-test-id").orElse (fun _ =>
        (truthyAttr e "data-cy").orElse (fun _ => truthyAttr e "data-id"))) with
  | some v => some ("[" ++ testAttrName e ++ "=\"" ++ cssEscape v ++ "\"]")
  | none => none

/-- `element.name`, reflected from the attribute on the form elements the
source guards for. -/
def nameOf (e : Elem) : String := (getAttr e "name").getD ""

/-- Priority 3: `name` attribute on form elements. -/
def strat3Name (_doc : Doc) (e : Elem) : Option String :=
  if nameOf e != "" && (e.tag == "INPUT" || e.tag == "SELECT" || e.tag == "TEXTAREA") then
    some (jsLower e.tag ++ "[name=\"" ++ cssEscape (nameOf e) ++ "\"]")
  else none

/-- Elements matched by `tag[attr="v"]` (exact attribute value). -/
def countTagAttrEq (doc : Doc) (tag a v : String) : Nat :=
  (doc.filter (fun el => el.tag == tag && getAttr el a == some v)).length

/-- Elements matched by `tag[attr*="v"]` (substring attribute value). -/
def countTagAttrSub (doc : Doc) (tag a v : String) : Nat :=
  (doc.filter (fun el => el.tag == tag &&
    (match getAttr el a with
     | some w => containsSeq v.data w.data
     | none => false))).length

/-- Priority 4: anchors with a non-trivial href; exact match if unique,
else unique substring match on the URL path. -/
def strat4Href (doc : Doc) (e : Elem) : Option String :=
  if e.tag == "A" then
    match truthyAttr e "href" with
    | some href =>
      if href != "#" && !(chopFront "javascript:".data href.data).isSome then
        if countTagAttrEq doc "A" "href" href == 1 then
          some ("a[href=\"" ++ cssEscape href ++ "\"]")
        else
          let pathname := urlPathname href
          if pathname != "" && pathname != "/" &&
              countTagAttrSub doc "A" "href" pathname == 1 then
            some ("a[href*=\"" ++ cssEscape pathname ++ "\"]")
          else none
      else none
    | none => none
  else none

/-- The text-match pseudo-locator the synthesizer emits:
`` tag:text("<literal with quotes escaped>") ``. -/
def textLocator (tag txt : String) : String :=
  tag ++ ":text(\"" ++ escQuotes txt ++ "\")"

/-- Priority 5: unique trimmed text content among same-tag elements. -/
def strat5Text (doc : Doc) (e : Elem) : Option String :=
  if e.tag == "BUTTON" || e.tag == "A" || e.tag == "SPAN" || e.tag == "DIV" then
    let text := trimJS e.textContent
    if text != "" && decide (text.length < 50) then
      let sameText := (doc.filter (fun el => el.tag == e.tag)).filter
        (fun el => trimJS el.textContent == text)
      if sameText.length == 1 then some (textLocator (jsLower e.tag) text) else none
    else none
  else none

/-- Elements matched by `[attr="v"]` (any tag, exact attribute value). -/
def countAttrEq (doc : Doc) (a v : String) : Nat :=
  (doc.filter (fun el => getAttr el a == some v)).length

/-- Priority 6: unique aria-label. -/
def strat6Aria (doc : Doc) (e : Elem) : Option String :=
  match truthyAttr e "aria-label" with
  | some v =>
    if countAttrEq doc "aria-label" v == 1 then
      some ("[aria-label=\"" ++ cssEscape v ++ "\"]")
    else none
  | none => none

/-- Priority 7: unique title. -/
def strat7Title (doc : Doc) (e : Elem) : Option String :=
  match truthyAttr e "title" with
  | some v =>
    if countAttrEq doc "title" v == 1 then
      some ("[title=\"" ++ cssEscape v ++ "\"]")
    else none
  | none => none

/-- The whitespace-separated class list of an element (CSS class matching). -/
def classListOf (e : Elem) : List String := splitWs e.className

/-- The stable classes of an element: `className.trim().split(/\s+/)`
filtered by the stability filter. -/
def stableClasses (e : Elem) : List String :=
  (splitWs (trimJS e.className)).filter isStableClass

/-- Priority 8: unique combination of tag and stable classes. -/
def strat8Class (doc : Doc) (e : Elem) : Option String :=
  if e.className != "" then
    let classes := stableClasses e
    if !classes.isEmpty then
      let sel := jsLower e.tag ++ "." ++ String.intercalate "." (classes.map cssEscape)
      if (doc.filter (fun el => el.tag == e.tag &&
            classes.all (fun c => (classListOf el).contains c))).length == 1 then
        some sel
      else none
    else none
  else none

def placeholderOf (e : Elem) : String := (getAttr e "placeholder").getD ""

/-- Priority 9: unique placeholder on inputs. -/
def strat9Placeholder (doc : Doc) (e : Elem) : Option String :=
  if e.tag == "INPUT" && placeholderOf e != "" then
    if countTagAttrEq doc "INPUT" "placeholder" (placeholderOf e) == 1 then
      some ("input[placeholder=\"" ++ cssEscape (placeholderOf e) ++ "\"]")
    else none
  else none

/-! ## Selector synthesis: CSS-path fallback (content.js lines 423-489) -/

def uniqueAttrsList : List String :=
  ["data-testid", "data-test-id", "data-cy", "data-id", "name", "aria-label", "role"]

/-- The per-level search for a uniquely matching `tag[attr="v"]` selector. -/
def firstUniqueAttrSel (doc : Doc) (cur : Elem) (base : String) : Option String :=
  uniqueAttrsList.findSome? (fun a =>
    match truthyAttr cur a with
    | some v =>
      if countTagAttrEq doc cur.tag a v == 1 then
        some (base ++ "[" ++ a ++ "=\"" ++ cssEscape v ++ "\"]")
      else none
    | none => none)

/-- The `:nth-of-type(n)` suffix, added only when a same-tag sibling has the
same (normalised) class string.  `findIdx` models `indexOf` for the
coherent documents considered (the element occurs among its own siblings). -/
def nthSuffix (doc : Doc) (cur : Elem) : String :=
  match parentOf doc cur with
  | some p =>
    let siblings := (childrenOf doc p).filter (fun c => c.tag == cur.tag)
    if decide (1 < siblings.length) then
      let matching := siblings.filter (fun sib =>
        sib.eid == cur.eid || classNorm sib.className == classNorm cur.className)
      if decide (1 < matching.length) then
        ":nth-of-type(" ++ toString ((siblings.findIdx (fun c => c.eid == cur.eid)) + 1) ++ ")"
      else ""
    else ""
  | none => ""

/-- One non-id, non-unique-attribute path component:
`tag[.stableClasses][:nth-of-type(n)]`. -/
def plainComponent (doc : Doc) (cur : Elem) : String :=
  let base := jsLower cur.tag
  let withClasses :=
    if cur.className != "" then
      let sc := (stableClasses cur).take 2
      if !sc.isEmpty then base ++ "." ++ String.intercalate "." (sc.map cssEscape) else base
    else base
  withClasses ++ nthSuffix doc cur

/-- The `getCssPath` walk.  Components are prepended as the walk moves from
the element toward the root; a stable ancestor id ends the walk, as does a
path of five components or a missing parent.  The loop body runs at most
five times, so the fuel of 6 never runs out before the source's own breaks. -/
def cssPathAux (doc : Doc) : Option Elem → List String → Nat → List String
  | none, path, _ => path
  | _, path, 0 => path
  | some cur, path, fuel + 1 =>
    if cur.id != "" && isStableId cur.id then ("#" ++ cssEscape cur.id) :: path
    else
      let comp :=
        match firstUniqueAttrSel doc cur (jsLower cur.tag) with
        | some s => s
        | none => plainComponent doc cur
      let path2 := comp :: path
      if decide (4 < path2.length) then path2
      else cssPathAux doc (parentOf doc cur) path2 fuel

/-- Priority 10: the CSS-path fallback. -/
def getCssPath (doc : Doc) (e : Elem) : String :=
  String.intercalate " > " (cssPathAux doc (some e) [] 6)

/-- `generateSelector` priorities 2-10 (content.js lines 311-402): the blocks
after the id strategy, each with early return. -/
def generateSelectorFrom2 (doc : Doc) (e : Elem) : String :=
  match strat2TestAttr doc e with
  | some s => s
  | none =>
    match strat3Name doc e with
    | some s => s
    | none =>
      match strat4Href doc e with
      | some s => s
      | none =>
        match strat5Text doc e with
        | some s => s
        | none =>
          match strat6Aria doc e with
          | some s => s
          | none =>
            match strat7Title doc e with
            | some s => s
            | none =>
              match strat8Class doc e with
              | some s => s
              | none =>
                match strat9Placeholder doc e with
                | some s => s
                | none => getCssPath doc e

/-- `generateSelector` (content.js lines 306-403). -/
def generateSelector (doc : Doc) (e : Elem) : String :=
  match strat1Id doc e with
  | some s => s
  | none => generateSelectorFrom2 doc e

/-- Modelled from the spec (section 4.1 and the design note in section 9):
the cascade as an ordered list of independent strategies evaluated in
sequence with early return, falling back to the CSS path. -/
def stratList : List (Doc → Elem → Option String) :=
  [strat1Id, strat2TestAttr, strat3Name, strat4Href, strat5Text,
   strat6Aria, strat7Title, strat8Class, strat9Placeholder]

/-- Modelled from the spec: run the cascade list, first match wins. -/
def cascadeSelector (doc : Doc) (e : Elem) : String :=
  (stratList.findSome? (fun f => f doc e)).getD (getCssPath doc e)

/-- Modelled from the spec: a UUID-shaped id, five hexadecimal groups of
lengths 8-4-4-4-12 joined by hyphens. -/
def uuidShapedSpec (s : String) : Bool :=
  match splitOnCharL '-' s.data with
  | [a, b, c, d, e] =>
    a.length == 8 && b.length == 4 && c.length == 4 && d.length == 4 &&
      e.length == 12 && (a ++ b ++ c ++ d ++ e).all isHexDigitChar
  | _ => false

/-! ## Replay resolution (content.js lines 577-624)

`waitForElement` consumes locator strings.  The text-match recognition is
the source regex; plain selectors go to a model of the platform query
engine covering the selector grammar the synthesizer emits (`#id`, `tag`,
classes, `[attr="v"]`, `[attr*="v"]`, `:nth-of-type(n)`, chains joined by
`" > "`); a selector outside the grammar behaves like an invalid selector:
the thrown error is caught and the alternative is skipped. -/

/-- The literal of a candidate text-match locator: the characters standing
between `:text("` and a final `")`. -/
def tailMid (rest : List Char) : Option (List Char) :=
  match rest.reverse with
  | ')' :: '"' :: midRev => some midRev.reverse
  | _ => none

/-- The part of the text-match recognition after the `:text("` prefix has
been removed: the regex group `(.+)` up to the final `")`, then the
unescaping `text.replace(/\\"/g, '"')`. -/
def textMatchTail (tg rest : List Char) : Option (String × String) :=
  match tailMid rest with
  | some mid =>
    if mid.isEmpty then none
    else if mid.all (fun c => c != '\n' && c != '\r') then
      some (⟨tg⟩, ⟨unescQuotesL mid⟩)
    else none
  | none => none

/-- The text-match recognizer of `waitForElement` (content.js lines 585-588):
the regex `/^(\w+):text\("(.+)"\)$/` followed by `text.replace(/\\"/g, '"')`.
Returns the tag and the unescaped literal. -/
def textMatchParse (sel : String) : Option (String × String) :=
  if (sel.data.takeWhile isWordChar).isEmpty then none
  else
    match chopFront ":text(\"".data
        (sel.data.drop (sel.data.takeWhile isWordChar).length) with
    | none => none
    | some rest => textMatchTail (sel.data.takeWhile isWordChar) rest

inductive AttrMode where
  | exact
  | substr
deriving DecidableEq

/-- One compound of the modelled selector grammar. -/
structure SelPart where
  tagQ : Option String
  idQ : Option String
  classQ : List String
  attrQ : List (String × AttrMode × String)
  nthQ : Option Nat
deriving DecidableEq

def emptyPart : SelPart := ⟨none, none, [], [], none⟩

/-- Quoted attribute value: characters up to the closing quote, with
backslash escapes collapsed. -/
def parseAttrValue : List Char → Option (List Char × List Char)
  | [] => none
  | '"' :: r => some ([], r)
  | '\\' :: c :: r =>
    match parseAttrValue r with
    | some (v, rest) => some (c :: v, rest)
    | none => none
  | c :: r =>
    match parseAttrValue r with
    | some (v, rest) => some (c :: v, rest)
    | none => none

def digitsToNat (ds : List Char) : Nat :=
  ds.foldl (fun a c => a * 10 + (c.toNat - 48)) 0

/-- The suffixes of one compound: `#id`, `.class`, `[attr(*)="v"]`,
`:nth-of-type(n)`; stops at end of input or at a space (chain separator). -/
def parsePartAux : Nat → SelPart → List Char → Option (SelPart × List Char)
  | 0, _, _ => none
  | _ + 1, part, [] => some (part, [])
  | fuel + 1, part, '#' :: r =>
    let nm := r.takeWhile isIdentChar
    if nm.isEmpty then none
    else parsePartAux fuel { part with idQ := some ⟨nm⟩ } (r.drop nm.length)
  | fuel + 1, part, '.' :: r =>
    let nm := r.takeWhile isIdentChar
    if nm.isEmpty then none
    else parsePartAux fuel { part with classQ := part.classQ ++ [⟨nm⟩] } (r.drop nm.length)
  | fuel + 1, part, '[' :: r =>
    let nm := r.takeWhile isIdentChar
    if nm.isEmpty then none
    else
      match r.drop nm.length with
      | '*' :: '=' :: '"' :: r2 =>
        match parseAttrValue r2 with
        | some (v, ']' :: r3) =>
          parsePartAux fuel
            { part with attrQ := part.attrQ ++ [(⟨nm⟩, AttrMode.substr, ⟨v⟩)] } r3
        | _ => none
      | '=' :: '"' :: r2 =>
        match parseAttrValue r2 with
        | some (v, ']' :: r3) =>
          parsePartAux fuel
            { part with attrQ := part.attrQ ++ [(⟨nm⟩, AttrMode.exact, ⟨v⟩)] } r3
        | _ => none
      | _ => none
  | fuel + 1, part, ':' :: r =>
    match chopFront "nth-of-type(".data r with
    | some r2 =>
      let ds := r2.takeWhile Char.isDigit
      if ds.isEmpty then none
      else
        match r2.drop ds.length with
        | ')' :: r3 => parsePartAux fuel { part with nthQ := some (digitsToNat ds) } r3
        | _ => none
    | none => none
  | _ + 1, part, ' ' :: r => some (part, ' ' :: r)
  | _ + 1, _, _ => none

/-- One compound: optional leading tag, then the suffixes. -/
def parsePart (fuel : Nat) (l : List Char) : Option (SelPart × List Char) :=
  let tg := l.takeWhile (fun c => c.isAlphanum)
  let part := if tg.isEmpty then emptyPart else { emptyPart with tagQ := some ⟨tg⟩ }
  parsePartAux fuel part (l.drop tg.length)

/-- A chain of compounds joined by the child combinator `" > "`. -/
def parseChainAux : Nat → List Char → Option (List SelPart)
  | 0, _ => none
  | _ + 1, [] => none
  | fuel + 1, l =>
    match parsePart (l.length + 1) l with
    | some (p, rest) =>
      if p = emptyPart then none
      else if rest.isEmpty then some [p]
      else
        match chopFront " > ".data rest with
        | some r2 =>
          match parseChainAux fuel r2 with
          | some ps => some (p :: ps)
          | none => none
        | none => none
    | none => none

def parseSelQ (sel : String) : Option (List SelPart) :=
  parseChainAux (sel.data.length + 1) sel.data

/-- 1-based index of an element among its same-tag siblings
(the CSS `:nth-of-type` position). -/
def nthOfTypeIdx (doc : Doc) (e : Elem) : Nat :=
  let sibsAll : List Elem :=
    match e.parent with
    | some pid => doc.filter (fun x => x.parent == some pid)
    | none => doc.filter (fun x => x.parent == none)
  let sibs := sibsAll.filter (fun x => x.tag == e.tag)
  sibs.findIdx (fun x => x.eid == e.eid) + 1

def matchPart (doc : Doc) (p : SelPart) (el : Elem) : Bool :=
  (match p.tagQ with | some t => el.tag == jsUpper t | none => true) &&
  (match p.idQ with | some i => el.id == i | none => true) &&
  p.classQ.all (fun c => (classListOf el).contains c) &&
  p.attrQ.all (fun q =>
    match getAttr el q.1 with
    | some w =>
      match q.2.1 with
      | AttrMode.exact => w == q.2.2
      | AttrMode.substr => containsSeq q.2.2.data w.data
    | none => false) &&
  (match p.nthQ with | some n => nthOfTypeIdx doc el == n | none => true)

/-- Match a reversed chain against an element: the head compound matches the
element, each following one the direct parent up the ancestry. -/
def matchChainRev (doc : Doc) : List SelPart → Elem → Bool
  | [], _ => false
  | [p], el => matchPart doc p el
  | p :: ps, el =>
    matchPart doc p el &&
      (match parentOf doc el with
       | some par => matchChainRev doc ps par
       | none => false)

def matchesQ (doc : Doc) (q : List SelPart) (el : Elem) : Bool :=
  matchChainRev doc q.reverse el

/-- `document.querySelector(sel)`: first match in document order; `none`
for a selector the engine rejects (the caller catches the throw). -/
def querySelFirst (sel : String) (doc : Doc) : Option Elem :=
  match parseSelQ sel with
  | some q => doc.find? (fun el => matchesQ doc q el)
  | none => none

/-- One alternative inside one polling pass of `waitForElement`
(content.js lines 582-607): a text-match pseudo-locator scans the elements
of its tag for a visible one with the matching trimmed text; any other
selector runs as a direct query whose first match is accepted if visible;
a rejected selector is skipped. -/
def resolveAlt (sel : String) (doc : Doc) : Option Elem :=
  match textMatchParse sel with
  | some (tag, lit) =>
    (doc.filter (fun el => el.tag == jsUpper tag)).find?
      (fun el => trimJS el.textContent == lit && isVisible el)
  | none =>
    match querySelFirst sel doc with
    | some el => if isVisible el then some el else none
    | none => none

/-- `selector.split(',').map(s => s.trim())` (content.js line 579). -/
def splitAlts (sel : String) : List String :=
  (splitOnCharL ',' sel.data).map (fun l => trimJS ⟨l⟩)

/-- One polling pass: the alternatives in order, first hit wins. -/
def resolvePass (alts : List String) (doc : Doc) : Option Elem :=
  alts.findSome? (fun a => resolveAlt a doc)

/-- The polling loop of `waitForElement`: while the elapsed time is below
the timeout, run a pass and otherwise sleep 100 ms; returns the result and
the elapsed time at which the loop ended. -/
def waitLoop (alts : List String) (doc : Doc) (timeout elapsed : Nat) :
    Option Elem × Nat :=
  if h : elapsed < timeout then
    match resolvePass alts doc with
    | some el => (some el, elapsed)
    | none => waitLoop alts doc timeout (elapsed + 100)
  else (none, elapsed)
termination_by timeout - elapsed
decreasing_by simp_wf; omega

/-- `waitForElement` (content.js lines 577-616). -/
def waitForElement (sel : String) (doc : Doc) (timeout : Nat) : Option Elem × Nat :=
  waitLoop (splitAlts sel) doc timeout 0

/-! ## Step execution (content.js lines 495-575) -/

/-- Whether the two native value-setter property descriptor lookups of
content.js lines 553-557 succeed: `HTMLInputElement.prototype` and
`HTMLTextAreaElement.prototype`.  On the real platform both are present. -/
structure Env where
  inputSetterPresent : Bool
  textareaSetterPresent : Bool
deriving DecidableEq

/-- The native setter function the disjunction on content.js lines 553-557
can select. -/
inductive NativeSetter where
  | inputSetter
  | textareaSetter
deriving DecidableEq

/-- `getOwnPropertyDescriptor(HTMLInputElement.prototype,'value')?.set ||
getOwnPropertyDescriptor(HTMLTextAreaElement.prototype,'value')?.set`:
the `||` short-circuits on the input setter whenever it is present, so the
textarea setter is selected only when the input descriptor lookup fails. -/
def pickSetter (env : Env) : Option NativeSetter :=
  if env.inputSetterPresent then some NativeSetter.inputSetter
  else if env.textareaSetterPresent then some NativeSetter.textareaSetter
  else none

inductive Fx where
  | scroll (eid : Nat)
  | highlight (eid : Nat)
  | focusEl (eid : Nat)
  | nativeClick (eid : Nat)
  | setSelectValue (eid : Nat) (v : String)
  | setEditableText (eid : Nat) (v : String)
  | setValueNative (eid : Nat) (v : String)
  | setValueDirect (eid : Nat) (v : String)
  | dispatchEvent (eid : Nat) (name : String)
deriving DecidableEq

structure ExecOut where
  res : Except String Unit
  timeMs : Nat
  fx : List Fx

/-- The action switch of `executeStep` (content.js lines 502-574) once the
element is resolved: effect trace in dispatch order, result, and the time
spent on the post-scroll pause.  The native click is modelled as succeeding,
so the synthetic-event fallback of the click branch stays unreached.

In the plain input/textarea branch the setter chosen by `pickSetter` is a
native accessor whose WebIDL brand check requires a receiver of the matching
interface: calling it on any other element throws `TypeError: Illegal
invocation`, which aborts the step before the value is written and before
any event is dispatched. -/
def execAction (env : Env) (step : Step) (el : Elem) (t0 : Nat) : ExecOut :=
  if step.type == "click" then
    ⟨Except.ok (), t0 + 200, [Fx.scroll el.eid, Fx.highlight el.eid, Fx.nativeClick el.eid]⟩
  else if step.type == "input" then
    let pre := [Fx.scroll el.eid, Fx.highlight el.eid, Fx.focusEl el.eid]
    if el.tag == "SELECT" then
      ⟨Except.ok (), t0 + 200,
        pre ++ [Fx.setSelectValue el.eid step.value, Fx.dispatchEvent el.eid "change"]⟩
    else if el.contentEditable then
      ⟨Except.ok (), t0 + 200,
        pre ++ [Fx.setEditableText el.eid step.value, Fx.dispatchEvent el.eid "input"]⟩
    else
      match pickSetter env with
      | some NativeSetter.inputSetter =>
        if el.tag == "INPUT" then
          ⟨Except.ok (), t0 + 200,
            pre ++ [Fx.setValueNative el.eid step.value,
              Fx.dispatchEvent el.eid "input", Fx.dispatchEvent el.eid "change",
              Fx.dispatchEvent el.eid "keyup"]⟩
        else ⟨Except.error "Illegal invocation", t0 + 200, pre⟩
      | some NativeSetter.textareaSetter =>
        if el.tag == "TEXTAREA" then
          ⟨Except.ok (), t0 + 200,
            pre ++ [Fx.setValueNative el.eid step.value,
              Fx.dispatchEvent el.eid "input", Fx.dispatchEvent el.eid "change",
              Fx.dispatchEvent el.eid "keyup"]⟩
        else ⟨Except.error "Illegal invocation", t0 + 200, pre⟩
      | none =>
        ⟨Except.ok (), t0 + 200,
          pre ++ [Fx.setValueDirect el.eid step.value,
            Fx.dispatchEvent el.eid "input", Fx.dispatchEvent el.eid "change",
            Fx.dispatchEvent el.eid "keyup"]⟩
  else ⟨Except.error ("Unknown step type: " ++ step.type), t0, []⟩

/-- `executeStep` of the page-resident engine (content.js lines 495-575):
resolve the locator with the default 10000 ms timeout, fail with the
element-not-found error carrying the locator when resolution returns null,
otherwise run the per-type switch. -/
def executeStepC (env : Env) (doc : Doc) (step : Step) : ExecOut :=
  match waitForElement step.selector doc 10000 with
  | (none, t) => ⟨Except.error ("Element not found: " ++ step.selector), t, []⟩
  | (some el, t) => execAction env step el t

/-- Modelled from the spec (section 4.3, claim C4): split a locator on
top-level commas only — a comma inside a double-quoted literal does not
separate alternatives. -/
def splitTopLevelL : Bool → List Char → List (List Char)
  | _, [] => [[]]
  | inQ, c :: r =>
    if c == '"' then consHead c (splitTopLevelL (!inQ) r)
    else if c == ',' && !inQ then [] :: splitTopLevelL inQ r
    else consHead c (splitTopLevelL inQ r)

/-- Modelled from the spec: the resolver pass with top-level comma
splitting, the behaviour claim C4 asserts. -/
def resolveTopLevelSplit (sel : String) (doc : Doc) : Option Elem :=
  ((splitTopLevelL false sel.data).map (fun l => trimJS ⟨l⟩)).findSome?
    (fun a => resolveAlt a doc)

/-! ## Concrete fixtures for counterexamples and witnesses -/

/-- Hidden element with a stable id (C1 counterexample). -/
def hiddenBtn : Elem :=
  ⟨1, none, "BUTTON", "saveBtn", "", [], "Save", "none", "visible", "1", false, false⟩

/-- Visible button whose text contains a comma (C4 counterexample). -/
def commaBtn : Elem :=
  ⟨2, none, "BUTTON", "", "", [], "a,b", "block", "visible", "1", true, false⟩

/-- Visible input field (C1 and C7 witnesses). -/
def fieldElem : Elem :=
  ⟨5, none, "INPUT", "fld", "", [], "", "block", "visible", "1", true, false⟩

/-- Visible div (C6 witness). -/
def divElem : Elem :=
  ⟨6, none, "DIV", "box", "", [], "", "block", "visible", "1", true, false⟩

/-- Visible button with text `Go` (C4 witness). -/
def goBtn : Elem :=
  ⟨8, none, "BUTTON", "", "", [], "Go", "block", "visible", "1", true, false⟩

def envTrue : Env := ⟨true, true⟩

/-- Visible textarea (C7 failing input). -/
def taElem : Elem :=
  ⟨9, none, "TEXTAREA", "ta", "", [], "", "block", "visible", "1", true, false⟩

def stepInputTa : Step := ⟨"input", "#ta", "hi", "textarea"⟩

def stepNope : Step := ⟨"click", "#nope", "", "button"⟩

def stepWaitC6 : Step := ⟨"wait", "#nope", "5", ""⟩

def stepHover : Step := ⟨"hover", "#box", "", "div"⟩

def stepInputFld : Step := ⟨"input", "#fld", "hello", "input"⟩

/-- Concrete element carrying both a stable id and a data-testid. -/
def dualElem : Elem :=
  ⟨4, none, "BUTTON", "saveBtn", "", [("data-testid", "submit")], "Save",
    "block", "visible", "1", true, false⟩

/-- Concrete element with a UUID-shaped id. -/
def uuidElem : Elem :=
  ⟨3, none, "BUTTON", "a1b2c3d4-e5f6-7890-abcd-1234567890ab", "", [], "Go",
    "block", "visible", "1", true, false⟩

/-- Concrete steps and a step executor used by witness theorems. -/
def stepA : Step := ⟨"click", "#a", "", "button"⟩

def stepB : Step := ⟨"click", "#b", "", "button"⟩

def stepC : Step := ⟨"click", "#c", "", "button"⟩

def execDemo : Nat → Step → Except String Unit :=
  fun i _ => if i = 1 then Except.error "boom" else Except.ok ()

/-! ## Claim C10 -/

/-- C10: when the orchestrator executes a `wait` step, the slept delay is the
step value parsed as an integer, replaced by 1000 ms when the value does not
parse to a nonzero integer, capped at 30000 ms; in particular it never
exceeds 30000 ms. -/
theorem c10_wait_step_delay (v : String) :
    waitStepSleepMs v ≤ 30000 ∧
    (parseIntJS v = none → waitStepSleepMs v = 1000) ∧
    (parseIntJS v = some 0 → waitStepSleepMs v = 1000) ∧
    (∀ n : Int, parseIntJS v = some n → n ≠ 0 → waitStepSleepMs v = min n 30000) := by
  refine ⟨?_, ?_, ?_, ?_⟩
  · unfold waitStepSleepMs
    exact min_le_right _ _
  · intro h; simp [waitStepSleepMs, h]
  · intro h; simp [waitStepSleepMs, h]
  · intro n h hn; simp [waitStepSleepMs, h, hn]

/-- Witness for C10 at concrete inputs. -/
theorem c10_wait_step_delay_witness :
    parseIntJS "abc" = none ∧ waitStepSleepMs "abc" = 1000 ∧ waitStepSleepMs "99999" ≤ 30000 :=
  ⟨by decide, (c10_wait_step_delay "abc").2.1 (by decide), (c10_wait_step_delay "99999").1⟩

/-! ## Claim C9 -/

theorem playLoop_first_failure (exec : Nat → Step → Except String Unit)
    (pre : List Step) (s : Step) (post : List Step) (m : String) :
    ∀ i0 : Nat,
      (∀ j (hj : j < pre.length), exec (i0 + j) (pre.get ⟨j, hj⟩) = Except.ok ()) →
      exec (i0 + pre.length) s = Except.error m →
      playLoop exec (pre ++ s :: post) i0 =
        (⟨false, some ("Step " ++ toString (i0 + pre.length + 1) ++ " failed: " ++ m),
            some (i0 + pre.length)⟩,
          List.range' i0 (pre.length + 1)) := by
  induction pre with
  | nil =>
    intro i0 _ hf
    simp only [List.nil_append, List.length_nil, Nat.add_zero] at hf ⊢
    simp [playLoop, hf, List.range']
  | cons a tl ih =>
    intro i0 hpre hf
    have ha : exec i0 a = Except.ok () := by
      have h0 := hpre 0 (by simp)
      simpa using h0
    have hpre' : ∀ j (hj : j < tl.length), exec (i0 + 1 + j) (tl.get ⟨j, hj⟩) = Except.ok () := by
      intro j hj
      have := hpre (j + 1) (by simpa using Nat.succ_lt_succ hj)
      simpa [Nat.add_comm, Nat.add_left_comm, Nat.add_assoc] using this
    have hf' : exec (i0 + 1 + tl.length) s = Except.error m := by
      have : i0 + 1 + tl.length = i0 + (a :: tl).length := by
        simp [Nat.add_comm, Nat.add_left_comm, Nat.add_assoc]
      rw [this]; exact hf
    have hrec := ih (i0 + 1) hpre' hf'
    simp only [List.cons_append, playLoop, ha, List.append_eq]
    rw [hrec]
    have h1 : i0 + (a :: tl).length + 1 = i0 + 1 + tl.length + 1 := by simp; omega
    have h2 : i0 + (a :: tl).length = i0 + 1 + tl.length := by simp; omega
    have h3 : (a :: tl).length + 1 = tl.length + 1 + 1 := by simp
    rw [h1, h2, h3, List.range'_succ]
    simp [List.range'_succ]

/-- C9: during replay, steps run strictly in the supplied order, the first
failure aborts the remaining sequence, and the failure report carries the
1-based index of the failing step together with the reason.  The attempted
indices are exactly `0, 1, ..., k` in order, the error message is
`Step <k+1> failed: <reason>`. -/
theorem c9_first_failure_aborts (exec : Nat → Step → Except String Unit)
    (pre : List Step) (s : Step) (post : List Step) (m : String)
    (hpre : ∀ j (hj : j < pre.length), exec j (pre.get ⟨j, hj⟩) = Except.ok ())
    (hf : exec pre.length s = Except.error m) :
    handlePlayWorkflow exec (pre ++ s :: post) =
      (⟨false, some ("Step " ++ toString (pre.length + 1) ++ " failed: " ++ m),
          some pre.length⟩,
        List.range (pre.length + 1)) := by
  have h := playLoop_first_failure exec pre s post m 0 (by simpa using hpre) (by simpa using hf)
  simpa [handlePlayWorkflow, List.range_eq_range'] using h

/-- Witness for C9: with the second step failing, replay attempts exactly
steps 0 and 1 and reports `Step 2 failed: boom`. -/
theorem c9_first_failure_aborts_witness :
    handlePlayWorkflow execDemo [stepA, stepB, stepC] =
      (⟨false, some ("Step " ++ toString (1 + 1) ++ " failed: " ++ "boom"), some 1⟩,
        List.range (1 + 1)) := by
  have h := c9_first_failure_aborts execDemo [stepA] stepB [stepC] "boom"
    (by
      intro j hj
      have hj0 : j = 0 := by simpa using Nat.lt_one_iff.mp (by simpa using hj)
      subst hj0
      rfl)
    (by rfl)
  simpa using h

/-! ## Claim C8 -/

/-- C8 counterexample: start recording on a page with one shadow root, then
stop.  The attached-roots set is not cleared and the shadow-root listeners
are not detached, contradicting the claim that stopRecording detaches every
listener attached during the session and clears the set. -/
theorem c8_counterexample :
    (stopRecordingM (startRecordingM [7] initRecState)).attachedRoots = [7] ∧
    (stopRecordingM (startRecordingM [7] initRecState)).rootListeners = [7] ∧
    (stopRecordingM (startRecordingM [7] initRecState)).attachedRoots ≠ [] ∧
    (stopRecordingM (startRecordingM [7] initRecState)).rootListeners ≠ [] := by
  decide

/-- C8 amended: in the recording state, `stopRecording` removes the window
and document listeners, disconnects the mutation observer and removes the
indicator, but it preserves the attached-shadow-roots set and leaves every
shadow-root listener attached; a subsequent `startRecording` therefore does
not re-attach to a root already in the set. -/
theorem c8_stop_keeps_shadow_state (s : RecState) (h : s.isRecording = true) :
    stopRecordingM s =
      { s with
          isRecording := false, winListeners := false, docListeners := false,
          observerActive := false, indicatorShown := false } ∧
    (stopRecordingM s).attachedRoots = s.attachedRoots ∧
    (stopRecordingM s).rootListeners = s.rootListeners ∧
    (∀ r : Nat, r ∈ s.attachedRoots →
      ∀ roots : List Nat,
        (startRecordingM roots (stopRecordingM s)).rootListeners.count r =
          (stopRecordingM s).rootListeners.count r) := by
  have hstop : stopRecordingM s =
      { s with
          isRecording := false, winListeners := false, docListeners := false,
          observerActive := false, indicatorShown := false } := by
    simp [stopRecordingM, h]
  refine ⟨hstop, by rw [hstop], by rw [hstop], ?_⟩
  intro r hr roots
  rw [hstop]
  have key : ∀ (roots : List Nat) (st : RecState), r ∈ st.attachedRoots →
      (attachToShadowRootsM roots st).rootListeners.count r = st.rootListeners.count r := by
    intro roots
    induction roots with
    | nil => intro st _; rfl
    | cons x xs ih =>
      intro st hst
      show (attachToShadowRootsM xs (attachStep x st)).rootListeners.count r = _
      by_cases hx : st.attachedRoots.contains x
      · rw [show attachStep x st = st from by simp only [attachStep]; rw [if_pos hx]]
        exact ih st hst
      · have hxr : x ≠ r := by
          intro hxr
          subst hxr
          exact hx (List.elem_eq_true_of_mem hst)
        have h1 : attachStep x st =
            { st with
                attachedRoots := st.attachedRoots ++ [x],
                rootListeners := st.rootListeners ++ [x] } := by
          simp only [attachStep]
          rw [if_neg hx]
        rw [h1]
        have hst' : r ∈ (st.attachedRoots ++ [x]) := List.mem_append_left _ hst
        have hxs := ih { st with
            attachedRoots := st.attachedRoots ++ [x],
            rootListeners := st.rootListeners ++ [x] } hst'
        rw [hxs]
        simp [List.count_append, List.count_singleton, Ne.symm hxr]
  simp only [startRecordingM]
  rw [if_neg (by simp)]
  exact key roots _ hr

/-- Witness for C8 amended at a concrete recording state. -/
theorem c8_stop_keeps_shadow_state_witness :
    (⟨true, true, true, true, true, [7], [7]⟩ : RecState).isRecording = true ∧
    (stopRecordingM ⟨true, true, true, true, true, [7], [7]⟩).attachedRoots = [7] :=
  ⟨by decide, by
    have h := c8_stop_keeps_shadow_state ⟨true, true, true, true, true, [7], [7]⟩ (by decide)
    rw [h.2.1]⟩

/-! ## Claims C2 and C3 -/

theorem data_append (a b : String) : (a ++ b).data = a.data ++ b.data := by
  obtain ⟨ad⟩ := a
  obtain ⟨bd⟩ := b
  rfl

theorem hash_ne_bracket (s t : String) : ("#" ++ s) ≠ ("[" ++ t) := by
  intro h
  have h2 := congrArg String.data h
  rw [data_append, data_append] at h2
  have e1 : "#".data = ['#'] := rfl
  have e2 : "[".data = ['['] := rfl
  rw [e1, e2] at h2
  simp at h2

/-- C2: an element whose nonempty id passes the stability filter synthesizes
the id-based locator `#<escaped-id>` even when a data-testid is present,
never an attribute-form locator; and the synthesizer is exactly the stated
priority cascade with short-circuit on the first applicable strategy. -/
theorem c2_id_beats_testid (doc : Doc) (e : Elem) (v : String)
    (hid : e.id ≠ "") (hstable : isStableId e.id = true)
    (htest : truthyAttr e "data-testid" = some v) :
    generateSelector doc e = "#" ++ cssEscape e.id ∧
    (∀ a w : String, generateSelector doc e ≠ "[" ++ a ++ "=\"" ++ w ++ "\"]") ∧
    (∀ (d : Doc) (x : Elem), generateSelector d x = cascadeSelector d x) := by
  have h1 : generateSelector doc e = "#" ++ cssEscape e.id := by
    have hs : strat1Id doc e = some ("#" ++ cssEscape e.id) := by
      simp [strat1Id, hstable, hid]
    simp [generateSelector, hs]
  refine ⟨h1, ?_, ?_⟩
  · intro a w
    rw [h1]
    exact hash_ne_bracket _ _
  · intro d x
    unfold generateSelector generateSelectorFrom2 cascadeSelector stratList
    cases h1x : strat1Id d x with
    | some s => simp [List.findSome?_cons, h1x]
    | none =>
      simp only [List.findSome?_cons, h1x]
      cases h2x : strat2TestAttr d x with
      | some s => simp [List.findSome?_cons, h2x]
      | none =>
        simp only [List.findSome?_cons, h2x]
        cases h3x : strat3Name d x with
        | some s => simp [List.findSome?_cons, h3x]
        | none =>
          simp only [List.findSome?_cons, h3x]
          cases h4x : strat4Href d x with
          | some s => simp [List.findSome?_cons, h4x]
          | none =>
            simp only [List.findSome?_cons, h4x]
            cases h5x : strat5Text d x with
            | some s => simp [List.findSome?_cons, h5x]
            | none =>
              simp only [List.findSome?_cons, h5x]
              cases h6x : strat6Aria d x with
              | some s => simp [List.findSome?_cons, h6x]
              | none =>
                simp only [List.findSome?_cons, h6x]
                cases h7x : strat7Title d x with
                | some s => simp [List.findSome?_cons, h7x]
                | none =>
                  simp only [List.findSome?_cons, h7x]
                  cases h8x : strat8Class d x with
                  | some s => simp [List.findSome?_cons, h8x]
                  | none =>
                    simp only [List.findSome?_cons, h8x]
                    cases h9x : strat9Placeholder d x with
                    | some s => simp [List.findSome?_cons, h9x]
                    | none => simp [List.findSome?_cons, h9x]

/-- Witness for C2 at a concrete element carrying both locator sources. -/
theorem c2_id_beats_testid_witness :
    dualElem.id ≠ "" ∧ isStableId dualElem.id = true ∧
    truthyAttr dualElem "data-testid" = some "submit" ∧
    generateSelector [dualElem] dualElem = "#" ++ cssEscape dualElem.id :=
  ⟨by decide, by decide, by decide,
    (c2_id_beats_testid [dualElem] dualElem "submit" (by decide) (by decide) (by decide)).1⟩

theorem splitOnCharL_ne_nil (sep : Char) (l : List Char) : splitOnCharL sep l ≠ [] := by
  induction l with
  | nil => simp [splitOnCharL]
  | cons c r ih =>
    by_cases hc : c == sep
    · simp [splitOnCharL, hc]
    · simp only [splitOnCharL, hc, Bool.false_eq_true, if_false]
      cases hr : splitOnCharL sep r with
      | nil => exact absurd hr ih
      | cons h t => simp [consHead]

theorem joinCharL_consHead (sep c : Char) (gs : List (List Char)) (hgs : gs ≠ []) :
    joinCharL sep (consHead c gs) = c :: joinCharL sep gs := by
  cases gs with
  | nil => exact absurd rfl hgs
  | cons g t =>
    cases t with
    | nil => rfl
    | cons g2 t2 => rfl

theorem joinCharL_nil_cons (sep : Char) (gs : List (List Char)) (hgs : gs ≠ []) :
    joinCharL sep ([] :: gs) = sep :: joinCharL sep gs := by
  cases gs with
  | nil => exact absurd rfl hgs
  | cons g t => rfl

theorem joinCharL_splitOnCharL (sep : Char) (l : List Char) :
    joinCharL sep (splitOnCharL sep l) = l := by
  induction l with
  | nil => rfl
  | cons c r ih =>
    by_cases hc : c == sep
    · have hcc : c = sep := by simpa using hc
      simp only [splitOnCharL, hc, if_true]
      rw [joinCharL_nil_cons sep _ (splitOnCharL_ne_nil sep r), ih, hcc]
    · simp only [splitOnCharL, hc, Bool.false_eq_true, if_false]
      rw [joinCharL_consHead sep c _ (splitOnCharL_ne_nil sep r), ih]

theorem all_hexDash_of_hex (l : List Char) (h : l.all isHexDigitChar = true) :
    l.all isHexDashChar = true := by
  rw [List.all_eq_true] at h ⊢
  intro x hx
  have := h x hx
  simp [isHexDashChar]
  left
  simpa using this

theorem uuidShapedSpec_regex (s : String) (h : uuidShapedSpec s = true) :
    uuidRegexMatch s = true := by
  obtain ⟨sd⟩ := s
  unfold uuidShapedSpec at h
  split at h
  case _ a b c d e heq =>
    have hjoin := joinCharL_splitOnCharL '-' sd
    rw [heq] at hjoin
    have hsd : sd = a ++ '-' :: (b ++ '-' :: (c ++ '-' :: (d ++ '-' :: e))) := by
      rw [← hjoin]
      rfl
    simp only [Bool.and_eq_true, beq_iff_eq] at h
    obtain ⟨⟨⟨⟨⟨ha, hb⟩, hc⟩, hd⟩, he⟩, hall⟩ := h
    have hlen : (String.mk sd).length = 36 := by
      show sd.length = 36
      rw [hsd]
      simp [List.length_append, ha, hb, hc, hd, he]
    simp only [List.all_append] at hall
    unfold uuidRegexMatch
    simp only [Bool.and_eq_true, beq_iff_eq]
    constructor
    · exact hlen
    · show sd.all isHexDashChar = true
      rw [hsd]
      simp only [List.all_append, List.all_cons, Bool.and_eq_true]
      simp only [Bool.and_eq_true] at hall
      refine ⟨all_hexDash_of_hex _ hall.1.1.1.1, by decide,
        all_hexDash_of_hex _ hall.1.1.1.2, by decide,
        all_hexDash_of_hex _ hall.1.1.2, by decide,
        all_hexDash_of_hex _ hall.1.2, by decide,
        all_hexDash_of_hex _ hall.2⟩
  case _ =>
    exact absurd h (by simp)

/-- C3: an id that is UUID-shaped, React-generated (`:rNN:`-style), purely
numeric, or longer than 50 characters fails the stability filter; the id
strategy yields nothing for it and the synthesizer falls through to the
rest of the cascade. -/
theorem c3_unstable_id_rejected (doc : Doc) (e : Elem)
    (h : uuidShapedSpec e.id = true ∨ reactIdMatch e.id = true ∨
         pureNumericMatch e.id = true ∨ 50 < e.id.length) :
    isStableId e.id = false ∧ strat1Id doc e = none ∧
    generateSelector doc e = generateSelectorFrom2 doc e := by
  have hfalse : isStableId e.id = false := by
    rcases h with h | h | h | h
    · have hu := uuidShapedSpec_regex _ h
      simp [isStableId, hu]
    · simp [isStableId, h]
    · simp [isStableId, h]
    · simp [isStableId, h]
  have hs : strat1Id doc e = none := by
    simp [strat1Id, hfalse]
  exact ⟨hfalse, hs, by simp [generateSelector, hs]⟩

/-- Witness for C3 at a concrete UUID-shaped id. -/
theorem c3_unstable_id_rejected_witness :
    uuidShapedSpec uuidElem.id = true ∧ isStableId uuidElem.id = false :=
  ⟨by decide, (c3_unstable_id_rejected [uuidElem] uuidElem (Or.inl (by decide))).1⟩

/-! ## Resolver lemmas -/

theorem mk_data (s : String) : String.mk s.data = s := by
  obtain ⟨l⟩ := s
  rfl

theorem isEmpty_false_of_ne (l : List Char) (h : l ≠ []) : l.isEmpty = false := by
  cases l with
  | nil => exact absurd rfl h
  | cons c r => rfl

theorem takeWhile_all_eq (p : Char → Bool) (l : List Char)
    (h : ∀ c ∈ l, p c = true) : l.takeWhile p = l := by
  induction l with
  | nil => rfl
  | cons c r ih =>
    rw [List.takeWhile_cons, if_pos (h c (by simp))]
    rw [ih (fun x hx => h x (by simp [hx]))]

theorem dropWhile_none (p : Char → Bool) (l : List Char)
    (h : ∀ c ∈ l, p c = false) : l.dropWhile p = l := by
  cases l with
  | nil => rfl
  | cons c r => simp [List.dropWhile_cons, h c (by simp)]

theorem wsTrimL_no_ws (l : List Char) (h : ∀ c ∈ l, c.isWhitespace = false) :
    wsTrimL l = l := by
  unfold wsTrimL
  rw [dropWhile_none _ _ h,
    dropWhile_none _ _ (fun c hc => h c (List.mem_reverse.mp hc)),
    List.reverse_reverse]

theorem splitOnCharL_no_sep (sep : Char) (l : List Char)
    (h : ∀ c ∈ l, (c == sep) = false) : splitOnCharL sep l = [l] := by
  induction l with
  | nil => rfl
  | cons c r ih =>
    simp only [splitOnCharL, h c (by simp), Bool.false_eq_true, if_false]
    rw [ih (fun x hx => h x (by simp [hx]))]
    rfl

theorem identChar_not_comma (c : Char) (h : isIdentChar c = true) : (c == ',') = false := by
  cases hc : (c == ',') with
  | false => rfl
  | true =>
    have hcc : c = ',' := by simpa using hc
    subst hcc
    exact absurd h (by decide)

theorem identChar_not_ws (c : Char) (h : isIdentChar c = true) : c.isWhitespace = false := by
  cases hw : c.isWhitespace with
  | false => rfl
  | true =>
    exfalso
    have h1 : c = ' ' ∨ c = '\t' ∨ c = '\r' ∨ c = '\n' := by
      have hcases := hw
      simp [Char.isWhitespace] at hcases
      tauto
    rcases h1 with h1 | h1 | h1 | h1 <;> (subst h1; exact absurd h (by decide))

theorem chopFront_append (pat r : List Char) : chopFront pat (pat ++ r) = some r := by
  induction pat with
  | nil => rfl
  | cons p ps ih => simp [chopFront, ih]

theorem takeWhile_append_stop (p : Char → Bool) (l m : List Char) (c : Char)
    (hl : ∀ x ∈ l, p x = true) (hc : p c = false) :
    (l ++ c :: m).takeWhile p = l := by
  induction l with
  | nil => simp [List.takeWhile_cons, hc]
  | cons a t ih =>
    simp only [List.cons_append, List.takeWhile_cons, hl a (by simp), if_true]
    rw [ih (fun x hx => hl x (by simp [hx]))]

theorem escQuotesL_ne_nil (l : List Char) (h : l ≠ []) : escQuotesL l ≠ [] := by
  cases l with
  | nil => exact absurd rfl h
  | cons c r =>
    by_cases hc : c == '"'
    · simp [escQuotesL, hc]
    · simp [escQuotesL, hc]

theorem escQuotesL_mem (l : List Char) (c : Char) (h : c ∈ escQuotesL l) :
    c = '\\' ∨ c ∈ l := by
  induction l with
  | nil => simp [escQuotesL] at h
  | cons a r ih =>
    by_cases ha : a == '"'
    · have haa : a = '"' := by simpa using ha
      rw [show escQuotesL (a :: r) = '\\' :: '"' :: escQuotesL r from by
        simp [escQuotesL, ha]] at h
      rcases List.mem_cons.mp h with h1 | h1
      · exact Or.inl h1
      · rcases List.mem_cons.mp h1 with h2 | h2
        · subst h2; exact Or.inr (by simp [haa])
        · rcases ih h2 with h3 | h3
          · exact Or.inl h3
          · exact Or.inr (by simp [h3])
    · rw [show escQuotesL (a :: r) = a :: escQuotesL r from by simp [escQuotesL, ha]] at h
      rcases List.mem_cons.mp h with h1 | h1
      · exact Or.inr (by simp [h1])
      · rcases ih h1 with h3 | h3
        · exact Or.inl h3
        · exact Or.inr (by simp [h3])

theorem unesc_two (c1 c2 : Char) (r : List Char) :
    unescQuotesL (c1 :: c2 :: r) =
      (if c1 == '\\' && c2 == '"' then '"' :: unescQuotesL r
       else c1 :: unescQuotesL (c2 :: r)) := rfl

theorem unesc_cons_ne (c : Char) (l : List Char) (hc : (c == '\\') = false) :
    unescQuotesL (c :: l) = c :: unescQuotesL l := by
  cases l with
  | nil => rfl
  | cons d t => rw [unesc_two, if_neg (by simp [hc])]

theorem unesc_esc (l : List Char) (h : ∀ c ∈ l, (c == '\\') = false) :
    unescQuotesL (escQuotesL l) = l := by
  induction l with
  | nil => rfl
  | cons c r ih =>
    have hc' : (c == '\\') = false := h c (by simp)
    have ihr := ih (fun x hx => h x (by simp [hx]))
    by_cases hc : c == '"'
    · have hcc : c = '"' := by simpa using hc
      subst hcc
      rw [show escQuotesL ('"' :: r) = '\\' :: '"' :: escQuotesL r from by simp [escQuotesL]]
      rw [unesc_two, if_pos (by decide)]
      rw [ihr]
    · rw [show escQuotesL (c :: r) = c :: escQuotesL r from by simp [escQuotesL, hc]]
      rw [unesc_cons_ne c _ hc', ihr]

theorem find?_filter (l : List Elem) (p q : Elem → Bool) :
    (l.filter p).find? q = l.find? (fun x => p x && q x) := by
  induction l with
  | nil => rfl
  | cons a t ih =>
    by_cases hp : p a
    · by_cases hq : q a
      · simp [List.filter_cons, hp, List.find?_cons, hq]
      · simp [List.filter_cons, hp, List.find?_cons, hq, ih]
    · simp [List.filter_cons, hp, List.find?_cons, ih]

theorem tailMid_append (m : List Char) : tailMid (m ++ ['"', ')']) = some m := by
  unfold tailMid
  rw [List.reverse_append]
  simp

theorem textMatchParse_no_word (sel : String)
    (h1 : (sel.data.takeWhile isWordChar).isEmpty = true) :
    textMatchParse sel = none := by
  unfold textMatchParse
  rw [if_pos h1]

theorem textMatchParse_eq_tail (sel : String) (X : List Char)
    (h1 : (sel.data.takeWhile isWordChar).isEmpty = false)
    (h2 : chopFront ":text(\"".data
      (sel.data.drop (sel.data.takeWhile isWordChar).length) = some X) :
    textMatchParse sel = textMatchTail (sel.data.takeWhile isWordChar) X := by
  unfold textMatchParse
  rw [if_neg (by simp [h1]), h2]

theorem textMatchTail_mid (tg m : List Char) (hm : m.isEmpty = false)
    (hnl : m.all (fun c => c != '\n' && c != '\r') = true) :
    textMatchTail tg (m ++ ['"', ')']) = some (⟨tg⟩, ⟨unescQuotesL m⟩) := by
  unfold textMatchTail
  rw [tailMid_append]
  simp [hm, hnl]

theorem textMatchParse_textLocator (tag txt : String)
    (htag : tag ≠ "") (htagw : tag.data.all isWordChar = true)
    (htxt : txt ≠ "")
    (htxtc : txt.data.all (fun c => c != '\\' && c != '\n' && c != '\r') = true) :
    textMatchParse (textLocator tag txt) = some (tag, txt) := by
  obtain ⟨tl⟩ := tag
  obtain ⟨xl⟩ := txt
  have htl : tl ≠ [] := fun hh => htag (by rw [hh])
  have hxl : xl ≠ [] := fun hh => htxt (by rw [hh])
  have htlw : ∀ c ∈ tl, isWordChar c = true := by
    rw [List.all_eq_true] at htagw
    exact fun c hc => htagw c hc
  have hxlp : ∀ c ∈ xl, (c != '\\' && c != '\n' && c != '\r') = true := by
    rw [List.all_eq_true] at htxtc
    exact fun c hc => htxtc c hc
  have hd : (textLocator (String.mk tl) (String.mk xl)).data =
      tl ++ (":text(\"".data ++ (escQuotesL xl ++ "\")".data)) := by
    unfold textLocator escQuotes
    rw [data_append, data_append, data_append]
    simp [List.append_assoc]
  have hAhead : (":text(\"".data ++ (escQuotesL xl ++ "\")".data)) =
      ':' :: ("text(\"".data ++ (escQuotesL xl ++ "\")".data)) := rfl
  have htake : (textLocator (String.mk tl) (String.mk xl)).data.takeWhile isWordChar = tl := by
    rw [hd, hAhead]
    exact takeWhile_append_stop isWordChar tl _ ':' htlw (by decide)
  have hdrop : (textLocator (String.mk tl) (String.mk xl)).data.drop tl.length =
      ":text(\"".data ++ (escQuotesL xl ++ "\")".data) := by
    rw [hd]
    exact List.drop_left tl _
  have hEdata : ("\")".data : List Char) = ['"', ')'] := rfl
  have hnoback : ∀ c ∈ escQuotesL xl, (c != '\n' && c != '\r') = true := by
    intro c hc
    rcases escQuotesL_mem xl c hc with h1 | h1
    · subst h1; decide
    · have := hxlp c h1
      simp only [Bool.and_eq_true] at this
      simp [this.1.2, this.2]
  rw [textMatchParse_eq_tail _ (escQuotesL xl ++ "\")".data)
      (by rw [htake]; exact isEmpty_false_of_ne tl htl)
      (by rw [htake, hdrop]; exact chopFront_append _ _)]
  rw [htake, hEdata]
  rw [textMatchTail_mid tl (escQuotesL xl)
      (isEmpty_false_of_ne _ (escQuotesL_ne_nil xl hxl))
      (by rw [List.all_eq_true]; exact hnoback)]
  rw [unesc_esc xl (by
    intro c hc
    have hcall := hxlp c hc
    simp only [Bool.and_eq_true] at hcall
    have h1 := hcall.1.1
    cases hcb : (c == '\\') with
    | false => rfl
    | true => rw [bne, hcb] at h1; exact absurd h1 (by decide))]

/-! ## waitForElement and executeStep lemmas -/

theorem waitLoop_none (alts : List String) (doc : Doc)
    (h : resolvePass alts doc = none) :
    ∀ t e, (waitLoop alts doc t e).1 = none ∧ t ≤ (waitLoop alts doc t e).2 := by
  have main : ∀ n t e, t - e ≤ n →
      (waitLoop alts doc t e).1 = none ∧ t ≤ (waitLoop alts doc t e).2 := by
    intro n
    induction n with
    | zero =>
      intro t e hn
      have hte : ¬ e < t := by omega
      rw [waitLoop]
      simp [hte]
      omega
    | succ n ih =>
      intro t e hn
      by_cases hte : e < t
      · rw [waitLoop]
        simp [hte, h]
        exact ih t (e + 100) (by omega)
      · rw [waitLoop]
        simp [hte]
        omega
  intro t e
  exact main (t - e) t e (le_refl _)

theorem waitLoop_found (alts : List String) (doc : Doc) (el : Elem)
    (h : resolvePass alts doc = some el) (t : Nat) (ht : 0 < t) :
    waitLoop alts doc t 0 = (some el, 0) := by
  rw [waitLoop]
  simp [ht, h]

theorem executeStepC_notFound (env : Env) (doc : Doc) (step : Step)
    (h : resolvePass (splitAlts step.selector) doc = none) :
    (executeStepC env doc step).res = Except.error ("Element not found: " ++ step.selector) ∧
    10000 ≤ (executeStepC env doc step).timeMs ∧ (executeStepC env doc step).fx = [] := by
  obtain ⟨h1, h2⟩ := waitLoop_none _ _ h 10000 0
  have hw : waitForElement step.selector doc 10000 =
      (none, (waitLoop (splitAlts step.selector) doc 10000 0).2) := by
    unfold waitForElement
    exact Prod.ext h1 rfl
  unfold executeStepC
  rw [hw]
  exact ⟨rfl, h2, rfl⟩

theorem executeStepC_found (env : Env) (doc : Doc) (step : Step) (el : Elem)
    (h : resolvePass (splitAlts step.selector) doc = some el) :
    executeStepC env doc step = execAction env step el 0 := by
  have hw : waitForElement step.selector doc 10000 = (some el, 0) :=
    waitLoop_found _ _ _ h 10000 (by omega)
  unfold executeStepC
  rw [hw]

/-! ## The query-engine lemma for locators of the form `#id` -/

theorem parsePartAux_nil (fuel : Nat) (part : SelPart) :
    parsePartAux (fuel + 1) part [] = some (part, []) := rfl

theorem parsePartAux_hash (fuel : Nat) (part : SelPart) (r : List Char) :
    parsePartAux (fuel + 1) part ('#' :: r) =
      (if (r.takeWhile isIdentChar).isEmpty then none
       else parsePartAux fuel { part with idQ := some ⟨r.takeWhile isIdentChar⟩ }
        (r.drop (r.takeWhile isIdentChar).length)) := rfl

theorem parseChainAux_cons (fuel : Nat) (c : Char) (l : List Char) :
    parseChainAux (fuel + 1) (c :: l) =
      (match parsePart ((c :: l).length + 1) (c :: l) with
       | some (p, rest) =>
         if p = emptyPart then none
         else if rest.isEmpty then some [p]
         else
           match chopFront " > ".data rest with
           | some r2 =>
             match parseChainAux fuel r2 with
             | some ps => some (p :: ps)
             | none => none
           | none => none
       | none => none) := rfl

theorem parseSelQ_hash (id : String) (h1 : id ≠ "") (h2 : id.data.all isIdentChar = true) :
    parseSelQ ("#" ++ id) = some [⟨none, some id, [], [], none⟩] := by
  obtain ⟨l⟩ := id
  have hl : l ≠ [] := fun hh => h1 (by rw [hh])
  have hdata : ("#" ++ String.mk l).data = '#' :: l := by
    rw [data_append]
    rfl
  have hall : ∀ c ∈ l, isIdentChar c = true := by
    rw [List.all_eq_true] at h2
    exact fun c hc => h2 c hc
  have htake : l.takeWhile isIdentChar = l := takeWhile_all_eq _ _ hall
  have hpart : parsePart (l.length + 1 + 1) ('#' :: l) =
      some ({ emptyPart with idQ := some (String.mk l) }, []) := by
    unfold parsePart
    have htg : ('#' :: l).takeWhile (fun c => c.isAlphanum) = [] := by
      rw [List.takeWhile_cons]
      simp
    rw [htg]
    simp only [List.isEmpty_nil, if_true, List.length_nil, List.drop_zero]
    rw [parsePartAux_hash, htake]
    rw [isEmpty_false_of_ne l hl]
    simp only [Bool.false_eq_true, if_false]
    rw [List.drop_length]
    exact parsePartAux_nil _ _
  unfold parseSelQ
  rw [hdata]
  have hlen : ('#' :: l).length + 1 = l.length + 1 + 1 := by simp
  rw [hlen, parseChainAux_cons]
  rw [show ('#' :: l).length + 1 = l.length + 1 + 1 from hlen]
  rw [hpart]
  have hpne : ¬ (({ emptyPart with idQ := some (String.mk l) } : SelPart) = emptyPart) := by
    intro hcontra
    have := congrArg SelPart.idQ hcontra
    simp [emptyPart] at this
  simp [hpne]
  exact ⟨rfl, rfl, rfl, rfl⟩

/-! ## Claims C1, C4, C5, C6, C7 -/

/-- C1 counterexample: a display:none button with the stable id `saveBtn`.
The synthesizer returns the (non-null) locator `#saveBtn`, but resolving it
against the same unmodified document returns nothing, because resolution
requires visibility that synthesis never checked. -/
theorem c1_counterexample :
    generateSelector [hiddenBtn] hiddenBtn = "#saveBtn" ∧
    (waitForElement "#saveBtn" [hiddenBtn] 10000).1 = none := by
  constructor
  · decide
  · exact (waitLoop_none (splitAlts "#saveBtn") [hiddenBtn] (by decide) 10000 0).1

/-- C1 amended: for an element whose stable id needs no CSS escaping, that
is the first element of the document carrying its id, and that is visible,
resolving the synthesized locator against the same unmodified document
returns that same element.  (In general the claim fails: resolution demands
visibility that synthesis does not check, and the id, test-attribute, name
and CSS-path strategies do not guarantee that the element is the first
match of its own locator.) -/
theorem c1_roundtrip_stable_id (doc : Doc) (e : Elem)
    (hid : e.id ≠ "") (hstable : isStableId e.id = true)
    (hesc : cssEscape e.id = e.id)
    (hident : e.id.data.all isIdentChar = true)
    (hfirst : doc.find? (fun x => x.id == e.id) = some e)
    (hvis : isVisible e = true) :
    (waitForElement (generateSelector doc e) doc 10000).1 = some e := by
  have hid_all : ∀ c ∈ e.id.data, isIdentChar c = true := by
    rw [List.all_eq_true] at hident
    exact fun c hc => hident c hc
  have hgen : generateSelector doc e = "#" ++ e.id := by
    have hs : strat1Id doc e = some ("#" ++ cssEscape e.id) := by
      simp [strat1Id, hstable, hid]
    simp [generateSelector, hs, hesc]
  have hdata : ("#" ++ e.id).data = '#' :: e.id.data := by
    rw [data_append]
    rfl
  have hsplit : splitAlts ("#" ++ e.id) = ["#" ++ e.id] := by
    unfold splitAlts
    rw [hdata, splitOnCharL_no_sep ',' _ (by
      intro c hc
      rcases List.mem_cons.mp hc with hh | hh
      · subst hh; rfl
      · exact identChar_not_comma c (hid_all c hh))]
    simp only [List.map_cons, List.map_nil]
    unfold trimJS
    rw [wsTrimL_no_ws _ (by
      intro c hc
      rcases List.mem_cons.mp hc with hh | hh
      · subst hh; rfl
      · exact identChar_not_ws c (hid_all c hh))]
    rw [← hdata, mk_data]
  have htmp : textMatchParse ("#" ++ e.id) = none := by
    apply textMatchParse_no_word
    rw [hdata, List.takeWhile_cons, show isWordChar '#' = false from by decide]
    simp
  have hq : parseSelQ ("#" ++ e.id) = some [⟨none, some e.id, [], [], none⟩] :=
    parseSelQ_hash e.id hid hident
  have hfun : (fun el => matchesQ doc [(⟨none, some e.id, [], [], none⟩ : SelPart)] el) =
      (fun el => el.id == e.id) := by
    funext el
    simp [matchesQ, matchChainRev, matchPart]
  have halt : resolveAlt ("#" ++ e.id) doc = some e := by
    unfold resolveAlt
    rw [htmp]
    show (match querySelFirst ("#" ++ e.id) doc with
      | some el => if isVisible el then some el else none
      | none => none) = some e
    unfold querySelFirst
    rw [hq]
    show (match doc.find? (fun el =>
        matchesQ doc [(⟨none, some e.id, [], [], none⟩ : SelPart)] el) with
      | some el => if isVisible el then some el else none
      | none => none) = some e
    rw [hfun, hfirst]
    show (if isVisible e then some e else none) = some e
    rw [hvis]
    rfl
  have hres : resolvePass ["#" ++ e.id] doc = some e := by
    simp [resolvePass, List.findSome?_cons, halt]
  show (waitLoop (splitAlts (generateSelector doc e)) doc 10000 0).1 = some e
  rw [hgen, hsplit]
  rw [waitLoop_found _ _ _ hres 10000 (by omega)]

/-- Witness for C1 amended at a concrete visible input with a stable id. -/
theorem c1_roundtrip_stable_id_witness :
    fieldElem.id ≠ "" ∧ isStableId fieldElem.id = true ∧
    cssEscape fieldElem.id = fieldElem.id ∧
    [fieldElem].find? (fun x => x.id == fieldElem.id) = some fieldElem ∧
    isVisible fieldElem = true ∧
    (waitForElement (generateSelector [fieldElem] fieldElem) [fieldElem] 10000).1 =
      some fieldElem :=
  ⟨by decide, by decide, by decide, by decide, by decide,
    c1_roundtrip_stable_id [fieldElem] fieldElem (by decide) (by decide) (by decide)
      (by decide) (by decide) (by decide)⟩

/-- C4 counterexample: the locator `button:text("a,b")` is synthesizable
(the visible button has the unique trimmed text `a,b`), yet the resolver
splits at the comma inside the quoted literal, both fragments are invalid,
and resolution returns nothing; splitting on top-level commas only, as the
claim states, would return the button. -/
theorem c4_counterexample :
    (waitForElement "button:text(\"a,b\")" [commaBtn] 10000).1 = none ∧
    resolveTopLevelSplit "button:text(\"a,b\")" [commaBtn] = some commaBtn := by
  constructor
  · exact (waitLoop_none (splitAlts "button:text(\"a,b\")") [commaBtn] (by decide) 10000 0).1
  · decide

/-- C4 amended: the resolver splits its locator on every comma (a comma
inside a quoted text-match literal also separates, breaking such locators),
trims the pieces, and polls at 100 ms intervals; over an unchanged document
the outcome equals a single pass over the alternatives in order, and a
text-match alternative resolves to the first visible element of its tag
whose trimmed text content equals the literal. -/
theorem c4_split_and_text_semantics (sel : String) (doc : Doc) :
    (waitForElement sel doc 10000).1 = resolvePass (splitAlts sel) doc ∧
    (∀ tag txt : String, tag ≠ "" → tag.data.all isWordChar = true →
      txt ≠ "" →
      txt.data.all (fun c => c != '\\' && c != '\n' && c != '\r') = true →
      resolveAlt (textLocator tag txt) doc =
        doc.find? (fun el => el.tag == jsUpper tag &&
          (trimJS el.textContent == txt && isVisible el))) := by
  constructor
  · show (waitLoop (splitAlts sel) doc 10000 0).1 = resolvePass (splitAlts sel) doc
    cases hres : resolvePass (splitAlts sel) doc with
    | some el => rw [waitLoop_found _ _ _ hres 10000 (by omega)]
    | none => exact (waitLoop_none _ _ hres 10000 0).1
  · intro tag txt htag htagw htxt htxtc
    have hparse := textMatchParse_textLocator tag txt htag htagw htxt htxtc
    unfold resolveAlt
    rw [hparse]
    show (doc.filter (fun el => el.tag == jsUpper tag)).find?
        (fun el => trimJS el.textContent == txt && isVisible el) = _
    rw [find?_filter]

/-- Witness for C4 amended at a concrete locator and document. -/
theorem c4_split_and_text_semantics_witness :
    (waitForElement "#g" [goBtn] 10000).1 = resolvePass (splitAlts "#g") [goBtn] ∧
    resolveAlt (textLocator "button" "Go") [goBtn] =
      [goBtn].find? (fun el => el.tag == jsUpper "button" &&
        (trimJS el.textContent == "Go" && isVisible el)) :=
  ⟨(c4_split_and_text_semantics "#g" [goBtn]).1,
    (c4_split_and_text_semantics "#g" [goBtn]).2 "button" "Go" (by decide) (by decide)
      (by decide) (by decide)⟩

/-- C5: for a step whose locator matches no visible element, executeStep
fails with the element-not-found error carrying the original locator
string, and not before the 10000 ms resolution timeout has elapsed. -/
theorem c5_timeout_not_found (env : Env) (doc : Doc) (step : Step)
    (h : resolvePass (splitAlts step.selector) doc = none) :
    (executeStepC env doc step).res =
      Except.error ("Element not found: " ++ step.selector) ∧
    10000 ≤ (executeStepC env doc step).timeMs :=
  ⟨(executeStepC_notFound env doc step h).1, (executeStepC_notFound env doc step h).2.1⟩

/-- Witness for C5 at a concrete non-matching locator. -/
theorem c5_timeout_not_found_witness :
    resolvePass (splitAlts stepNope.selector) [] = none ∧
    (executeStepC envTrue [] stepNope).res =
      Except.error ("Element not found: " ++ stepNope.selector) ∧
    10000 ≤ (executeStepC envTrue [] stepNope).timeMs :=
  ⟨by decide, (c5_timeout_not_found envTrue [] stepNope (by decide)).1,
    (c5_timeout_not_found envTrue [] stepNope (by decide)).2⟩

/-- C6 counterexample: a step of the unknown type `wait` whose locator
matches nothing fails with the element-not-found error, not with the
unknown-step-type error the claim requires for every non-click, non-input
step. -/
theorem c6_counterexample :
    (executeStepC envTrue [] stepWaitC6).res =
      Except.error ("Element not found: " ++ stepWaitC6.selector) ∧
    (executeStepC envTrue [] stepWaitC6).res ≠
      Except.error ("Unknown step type: " ++ stepWaitC6.type) := by
  have h := executeStepC_notFound envTrue [] stepWaitC6 (by decide)
  refine ⟨h.1, ?_⟩
  rw [h.1]
  intro hm
  exact absurd (Except.error.inj hm) (by decide)

/-- C6 amended: a step whose type is neither click nor input fails with the
unknown-step-type error provided its locator resolves to a visible element;
when the locator does not resolve, the element-not-found failure happens
first instead. -/
theorem c6_unknown_type_resolved (env : Env) (doc : Doc) (step : Step) (el : Elem)
    (hres : resolvePass (splitAlts step.selector) doc = some el)
    (h1 : step.type ≠ "click") (h2 : step.type ≠ "input") :
    (executeStepC env doc step).res = Except.error ("Unknown step type: " ++ step.type) := by
  rw [executeStepC_found env doc step el hres]
  simp [execAction, h1, h2]

/-- Witness for C6 amended at a concrete resolved hover step. -/
theorem c6_unknown_type_resolved_witness :
    resolvePass (splitAlts stepHover.selector) [divElem] = some divElem ∧
    (executeStepC envTrue [divElem] stepHover).res =
      Except.error ("Unknown step type: " ++ stepHover.type) :=
  ⟨by decide,
    c6_unknown_type_resolved envTrue [divElem] stepHover divElem (by decide)
      (by decide) (by decide)⟩

/-- C7 (code bug): on a plain INPUT the engine writes the value through the
native setter and then dispatches bubbling input, change, keyup in exactly
that order, as the claim states; but on a TEXTAREA the short-circuiting
disjunction of content.js lines 553-557 always selects the (always-present)
HTMLInputElement value setter, whose brand check throws on a textarea
receiver, so the step fails with a TypeError before the value is set and
before any event is dispatched — the textarea half of the claim is false of
the code, against the evident intent of the dead textarea-setter fallback. -/
theorem c7_input_ok_textarea_throws (env : Env) (doc : Doc) (step : Step) (el : Elem)
    (hres : resolvePass (splitAlts step.selector) doc = some el)
    (htype : step.type = "input")
    (hce : el.contentEditable = false)
    (hin : env.inputSetterPresent = true) :
    (el.tag = "INPUT" →
      executeStepC env doc step =
        ⟨Except.ok (), 200,
          [Fx.scroll el.eid, Fx.highlight el.eid, Fx.focusEl el.eid,
           Fx.setValueNative el.eid step.value,
           Fx.dispatchEvent el.eid "input", Fx.dispatchEvent el.eid "change",
           Fx.dispatchEvent el.eid "keyup"]⟩) ∧
    (el.tag = "TEXTAREA" →
      executeStepC env doc step =
        ⟨Except.error "Illegal invocation", 200,
          [Fx.scroll el.eid, Fx.highlight el.eid, Fx.focusEl el.eid]⟩) := by
  constructor
  · intro htag
    rw [executeStepC_found env doc step el hres]
    have hsel : (el.tag == "SELECT") = false := by rw [htag]; decide
    simp [execAction, htype, hsel, hce, pickSetter, hin, htag]
  · intro htag
    rw [executeStepC_found env doc step el hres]
    have hsel : (el.tag == "SELECT") = false := by rw [htag]; decide
    have hina : (el.tag == "INPUT") = false := by rw [htag]; decide
    simp [execAction, htype, hsel, hce, pickSetter, hin, hina]

/-- Witness for C7 at the concrete failing textarea and at a concrete
working input. -/
theorem c7_input_ok_textarea_throws_witness :
    resolvePass (splitAlts stepInputTa.selector) [taElem] = some taElem ∧
    executeStepC envTrue [taElem] stepInputTa =
      ⟨Except.error "Illegal invocation", 200,
        [Fx.scroll taElem.eid, Fx.highlight taElem.eid, Fx.focusEl taElem.eid]⟩ ∧
    executeStepC envTrue [fieldElem] stepInputFld =
      ⟨Except.ok (), 200,
        [Fx.scroll fieldElem.eid, Fx.highlight fieldElem.eid, Fx.focusEl fieldElem.eid,
         Fx.setValueNative fieldElem.eid "hello",
         Fx.dispatchEvent fieldElem.eid "input", Fx.dispatchEvent fieldElem.eid "change",
         Fx.dispatchEvent fieldElem.eid "keyup"]⟩ := by
  refine ⟨by decide, ?_, ?_⟩
  · exact (c7_input_ok_textarea_throws envTrue [taElem] stepInputTa taElem
      (by decide) (by decide) (by decide) (by decide)).2 (by decide)
  · exact (c7_input_ok_textarea_throws envTrue [fieldElem] stepInputFld fieldElem
      (by decide) (by decide) (by decide) (by decide)).1 (by decide)

end Wave
